import Mathlib

/-!
Verification of the translation core of the Anthropic-to-Ollama proxy
(file anthropic-ollama-proxy.py).

The development shallowly embeds the claim-relevant parts of the program:

* a model of JSON values together with executable counterparts of the
  Python calls json.loads (parseJson) and json.dumps (jsonDumps,
  dumpsStrPairs); numbers are kept as their source lexemes, so no
  floating-point semantics is needed by any claim;
* the markup tool-call extractor extractToolCallsFromText, a faithful
  hand-compilation of the three regular-expression grammars of
  the source function, including finditer scanning order, lazy bodies,
  group-0 removal via str.replace, wrapper-tag cleanup and stripping;
* the response translators handleSync (sync path), handleSyncAsSse
  (pseudo-stream path) and handleStream (true-stream path), plus the
  shared preprocessing step processOllamaResponse;
* the claim-relevant pieces of the request translator: tool allow-list
  filtering, the forced non-streaming decision, max_tokens clamping and
  the system-prompt truncation / function-calling hint.

Fresh uuid4 hex strings are modelled by a generator parameter
(gen : Nat -> String) applied to the position of the generated id;
no claim depends on the concrete value of a fresh id.  Debug logging,
HTTP transport, the inbound message flattening loop and the token
counting endpoint are outside every claim and are not modelled.
Python strings are modelled as Lean strings; len and slicing act on
characters, matching Python code-point semantics.
-/

/-- Python str.strip removes these whitespace characters (ASCII range). -/
def isPyWs (c : Char) : Bool :=
  c == ' ' || c == '\t' || c == '\n' || c == '\r' || c == '\x0b' || c == '\x0c'

def pyStripChars (cs : List Char) : List Char :=
  ((cs.dropWhile isPyWs).reverse.dropWhile isPyWs).reverse

/-- Python str.strip(). -/
def pyStrip (s : String) : String := String.mk (pyStripChars s.data)

/-- Python str.startswith(pre). -/
def pyStartswith (s pre : String) : Bool := pre.data.isPrefixOf s.data

/-- Python `a or b` on strings: the left operand when non-empty. -/
def pyOr (s t : String) : String := if s = "" then t else s

/-- Consume an exact prefix, returning the remainder on success. -/
def dropPrefix? : List Char → List Char → Option (List Char)
  | [], cs => some cs
  | _ :: _, [] => none
  | p :: ps, c :: cs => if p = c then dropPrefix? ps cs else none

/-- Split the input at the first occurrence of a (non-empty) needle:
returns the part before the needle and the part after it.  This is the
semantics of a lazy regex body followed by a literal closing token. -/
def splitFirst (needle : List Char) : List Char → Option (List Char × List Char)
  | [] => (dropPrefix? needle []).map (fun r => ([], r))
  | c :: cs =>
    match dropPrefix? needle (c :: cs) with
    | some rest => some ([], rest)
    | none => (splitFirst needle cs).map (fun pr => (c :: pr.1, pr.2))

/-- Delete every occurrence of a non-empty pattern, scanning left to
right without overlap: the semantics of Python str.replace(pat, ""). -/
def removeAllAux (pat : List Char) : Nat → List Char → List Char
  | 0, cs => cs
  | _ + 1, [] => []
  | fuel + 1, c :: cs =>
    match dropPrefix? pat (c :: cs) with
    | some rest => removeAllAux pat fuel rest
    | none => c :: removeAllAux pat fuel cs

def removeAll (pat cs : List Char) : List Char := removeAllAux pat cs.length cs

/-- Left-to-right non-overlapping scan collecting all matches of a
single-pattern matcher: the semantics of re.finditer. -/
def scanAll {α : Type} (step : List Char → Option (α × List Char)) :
    Nat → List Char → List α
  | 0, _ => []
  | _ + 1, [] => []
  | fuel + 1, c :: cs =>
    match step (c :: cs) with
    | some (a, rest) => a :: scanAll step fuel rest
    | none => scanAll step fuel cs

def findAll {α : Type} (step : List Char → Option (α × List Char)) (cs : List Char) :
    List α :=
  scanAll step cs.length cs

/-! JSON model.  Numbers keep their source lexeme, which is exactly how
they round-trip through the claims (none of which computes with them). -/

inductive JsonValue where
  | null
  | boolVal (b : Bool)
  | num (lexeme : String)
  | str (s : String)
  | arr (elems : List JsonValue)
  | obj (members : List (String × JsonValue))

/-- Insertion with Python dict semantics: an existing key keeps its
position and receives the new value, a new key is appended. -/
def objInsert (kvs : List (String × JsonValue)) (k : String) (v : JsonValue) :
    List (String × JsonValue) :=
  if kvs.any (fun kv => kv.1 == k) then
    kvs.map (fun kv => if kv.1 == k then (k, v) else kv)
  else kvs ++ [(k, v)]

def isJsonWs (c : Char) : Bool :=
  c == ' ' || c == '\t' || c == '\n' || c == '\r'

def skipWs (cs : List Char) : List Char := cs.dropWhile isJsonWs

def hexDigitVal (c : Char) : Option Nat :=
  if '0' ≤ c ∧ c ≤ '9' then some (c.toNat - '0'.toNat)
  else if 'a' ≤ c ∧ c ≤ 'f' then some (c.toNat - 'a'.toNat + 10)
  else if 'A' ≤ c ∧ c ≤ 'F' then some (c.toNat - 'A'.toNat + 10)
  else none

def parseHex4 : List Char → Option (Nat × List Char)
  | a :: b :: c :: d :: rest =>
    match hexDigitVal a, hexDigitVal b, hexDigitVal c, hexDigitVal d with
    | some va, some vb, some vc, some vd =>
      some (((va * 16 + vb) * 16 + vc) * 16 + vd, rest)
    | _, _, _, _ => none
  | _ => none

def strCons (c : Char) : Option (List Char × List Char) → Option (List Char × List Char)
  | none => none
  | some (s, r) => some (c :: s, r)

/-- Decode a JSON string body (opening quote already consumed), in the
strict mode used by json.loads: raw control characters are rejected and
the usual escapes are decoded.  Surrogate escape pairs are combined;
lone surrogates (which CPython lets through) are rejected here, a corner
no claim touches. -/
def parseJString : Nat → List Char → Option (List Char × List Char)
  | 0, _ => none
  | _ + 1, [] => none
  | fuel + 1, c :: cs =>
    if c = '"' then some ([], cs)
    else if c = '\\' then
      match cs with
      | [] => none
      | e :: cs2 =>
        if e = '"' then strCons '"' (parseJString fuel cs2)
        else if e = '\\' then strCons '\\' (parseJString fuel cs2)
        else if e = '/' then strCons '/' (parseJString fuel cs2)
        else if e = 'b' then strCons '\x08' (parseJString fuel cs2)
        else if e = 'f' then strCons '\x0c' (parseJString fuel cs2)
        else if e = 'n' then strCons '\n' (parseJString fuel cs2)
        else if e = 'r' then strCons '\r' (parseJString fuel cs2)
        else if e = 't' then strCons '\t' (parseJString fuel cs2)
        else if e = 'u' then
          match parseHex4 cs2 with
          | none => none
          | some (n, cs3) =>
            if 0xD800 ≤ n ∧ n ≤ 0xDBFF then
              match cs3 with
              | '\\' :: 'u' :: cs4 =>
                match parseHex4 cs4 with
                | none => none
                | some (m, cs5) =>
                  if 0xDC00 ≤ m ∧ m ≤ 0xDFFF then
                    strCons (Char.ofNat (0x10000 + (n - 0xD800) * 0x400 + (m - 0xDC00)))
                      (parseJString fuel cs5)
                  else none
              | _ => none
            else if 0xDC00 ≤ n ∧ n ≤ 0xDFFF then none
            else strCons (Char.ofNat n) (parseJString fuel cs3)
        else none
    else if c.toNat < 0x20 then none
    else strCons c (parseJString fuel cs)

def jsonDigits (cs : List Char) : List Char × List Char := cs.span Char.isDigit

def parseFrac (cs : List Char) : Option (List Char × List Char) :=
  match cs with
  | '.' :: r =>
    let (ds, r2) := jsonDigits r
    if ds.isEmpty then none else some ('.' :: ds, r2)
  | _ => some ([], cs)

def parseExp (cs : List Char) : Option (List Char × List Char) :=
  match cs with
  | c :: r =>
    if c = 'e' ∨ c = 'E' then
      let (sgn, r2) :=
        match r with
        | s :: r2 => if s = '+' ∨ s = '-' then ([s], r2) else (([] : List Char), r)
        | [] => (([] : List Char), r)
      let (ds, r3) := jsonDigits r2
      if ds.isEmpty then none else some (c :: sgn ++ ds, r3)
    else some ([], cs)
  | [] => some ([], cs)

def afterInt (intPart : List Char) (cs : List Char) : Option (List Char × List Char) :=
  match parseFrac cs with
  | none => none
  | some (f, cs2) =>
    match parseExp cs2 with
    | none => none
    | some (e, cs3) => some (intPart ++ f ++ e, cs3)

/-- JSON number grammar, returning the matched lexeme. -/
def parseNumberLexeme (cs : List Char) : Option (List Char × List Char) :=
  let p := match cs with
    | '-' :: r => (['-'], r)
    | _ => (([] : List Char), cs)
  match p.2 with
  | '0' :: r => afterInt (p.1 ++ ['0']) r
  | c :: r =>
    if c.isDigit then
      let (ds, r2) := jsonDigits r
      afterInt (p.1 ++ c :: ds) r2
    else none
  | [] => none

mutual

def parseValue : Nat → List Char → Option (JsonValue × List Char)
  | 0, _ => none
  | fuel + 1, cs =>
    match skipWs cs with
    | [] => none
    | c :: rest =>
      if c = '\x7b' then
        match skipWs rest with
        | '\x7d' :: r2 => some (.obj [], r2)
        | _ =>
          match parseMembers fuel rest [] with
          | some (ms, r2) => some (.obj ms, r2)
          | none => none
      else if c = '[' then
        match skipWs rest with
        | ']' :: r2 => some (.arr [], r2)
        | _ =>
          match parseElements fuel rest [] with
          | some (es, r2) => some (.arr es, r2)
          | none => none
      else if c = '"' then
        match parseJString fuel rest with
        | some (s, r2) => some (.str (String.mk s), r2)
        | none => none
      else
        match dropPrefix? "true".data (c :: rest) with
        | some r2 => some (.boolVal true, r2)
        | none =>
        match dropPrefix? "false".data (c :: rest) with
        | some r2 => some (.boolVal false, r2)
        | none =>
        match dropPrefix? "null".data (c :: rest) with
        | some r2 => some (.null, r2)
        | none =>
        match dropPrefix? "NaN".data (c :: rest) with
        | some r2 => some (.num "NaN", r2)
        | none =>
        match dropPrefix? "Infinity".data (c :: rest) with
        | some r2 => some (.num "Infinity", r2)
        | none =>
        match dropPrefix? "-Infinity".data (c :: rest) with
        | some r2 => some (.num "-Infinity", r2)
        | none =>
        match parseNumberLexeme (c :: rest) with
        | some (lex, r2) => some (.num (String.mk lex), r2)
        | none => none

def parseMembers : Nat → List Char → List (String × JsonValue) →
    Option (List (String × JsonValue) × List Char)
  | 0, _, _ => none
  | fuel + 1, cs, acc =>
    match skipWs cs with
    | '"' :: rest =>
      match parseJString fuel rest with
      | none => none
      | some (k, r1) =>
        match skipWs r1 with
        | ':' :: r2 =>
          match parseValue fuel r2 with
          | none => none
          | some (v, r3) =>
            match skipWs r3 with
            | ',' :: r4 => parseMembers fuel r4 (objInsert acc (String.mk k) v)
            | '\x7d' :: r4 => some (objInsert acc (String.mk k) v, r4)
            | _ => none
        | _ => none
    | _ => none

def parseElements : Nat → List Char → List JsonValue →
    Option (List JsonValue × List Char)
  | 0, _, _ => none
  | fuel + 1, cs, acc =>
    match parseValue fuel cs with
    | none => none
    | some (v, r1) =>
      match skipWs r1 with
      | ',' :: r2 => parseElements fuel r2 (acc ++ [v])
      | ']' :: r2 => some (acc ++ [v], r2)
      | _ => none

end

/-- Model of json.loads: parse a complete JSON document, allowing
surrounding whitespace, rejecting trailing garbage.  The fuel bound is
generous: every recursive call consumes input or follows at most one
step behind a consumed character. -/
def parseJson (s : String) : Option JsonValue :=
  match parseValue (2 * s.data.length + 8) s.data with
  | some (v, rest) => if (skipWs rest).isEmpty then some v else none
  | none => none

def hexDigitChar (n : Nat) : Char :=
  if n < 10 then Char.ofNat ('0'.toNat + n) else Char.ofNat ('a'.toNat + n - 10)

/-- Escaping of one character inside a JSON string, as json.dumps with
ensure_ascii disabled performs it. -/
def jsonEscapeChar (c : Char) : String :=
  if c == '"' then "\\\""
  else if c == '\\' then "\\\\"
  else if c == '\n' then "\\n"
  else if c == '\r' then "\\r"
  else if c == '\t' then "\\t"
  else if c == '\x08' then "\\b"
  else if c == '\x0c' then "\\f"
  else if c.toNat < 0x20 then
    String.mk ['\\', 'u', '0', '0', hexDigitChar (c.toNat / 16), hexDigitChar (c.toNat % 16)]
  else String.mk [c]

def jsonQuote (s : String) : String :=
  "\"" ++ String.join (s.data.map jsonEscapeChar) ++ "\""

mutual

/-- Model of json.dumps with the default separators. -/
def jsonDumps : JsonValue → String
  | .null => "null"
  | .boolVal true => "true"
  | .boolVal false => "false"
  | .num lx => lx
  | .str s => jsonQuote s
  | .arr es => "[" ++ String.intercalate ", " (jsonDumpsList es) ++ "]"
  | .obj ms => "\x7b" ++ String.intercalate ", " (jsonDumpsMembers ms) ++ "\x7d"

def jsonDumpsList : List JsonValue → List String
  | [] => []
  | v :: vs => jsonDumps v :: jsonDumpsList vs

def jsonDumpsMembers : List (String × JsonValue) → List String
  | [] => []
  | (k, v) :: ms => (jsonQuote k ++ ": " ++ jsonDumps v) :: jsonDumpsMembers ms

end

/-- Model of json.dumps applied to a dict of strings, as the extractor
builds its arguments field. -/
def dumpsStrPairs (kvs : List (String × String)) : String :=
  "\x7b" ++
    String.intercalate ", " (kvs.map (fun kv => jsonQuote kv.1 ++ ": " ++ jsonQuote kv.2)) ++
    "\x7d"

/-! Markup tool-call extractor: hand-compiled counterparts of the three
regular-expression grammars of the source function, each annotated with
the pattern it implements.  Every matcher returns the captured pieces
together with the remainder of the input after the whole match; g0 is
the full matched span (regex group 0), used for removal. -/

structure RawMatch where
  name : List Char
  body : List Char
  g0 : List Char

/-- One backend-format tool call: the id, function name and the
JSON-encoded arguments string. -/
structure ToolCall where
  id : String
  name : String
  arguments : String
deriving Repr, DecidableEq

/-- Grammar 1 matcher, the pattern
invoke-tag with name attribute, lazy body, closing invoke-tag
(DOTALL; the name capture is one-or-more non-quote characters). -/
def matchInvokeAt (cs : List Char) : Option (RawMatch × List Char) :=
  match dropPrefix? "<invoke".data cs with
  | none => none
  | some r1 =>
    let p1 := r1.span isPyWs
    if p1.1.isEmpty then none
    else
      match dropPrefix? "name=\"".data p1.2 with
      | none => none
      | some r3 =>
        let p2 := r3.span (fun c => c ≠ '"')
        if p2.1.isEmpty then none
        else
          match dropPrefix? "\">".data p2.2 with
          | none => none
          | some r5 =>
            match splitFirst "</invoke>".data r5 with
            | none => none
            | some (body, rest) =>
              some (⟨p2.1, body, cs.take (cs.length - rest.length)⟩, rest)

/-- Grammar 1 parameter matcher: parameter-tag with name attribute,
lazy value, closing parameter-tag. -/
def matchParamAt (cs : List Char) : Option ((List Char × List Char) × List Char) :=
  match dropPrefix? "<parameter".data cs with
  | none => none
  | some r1 =>
    let p1 := r1.span isPyWs
    if p1.1.isEmpty then none
    else
      match dropPrefix? "name=\"".data p1.2 with
      | none => none
      | some r3 =>
        let p2 := r3.span (fun c => c ≠ '"')
        if p2.1.isEmpty then none
        else
          match dropPrefix? "\">".data p2.2 with
          | none => none
          | some r5 =>
            match splitFirst "</parameter>".data r5 with
            | none => none
            | some (v, rest) => some ((p2.1, v), rest)

/-- Grammar 2 (Qwen style) matcher: function=Name tag, lazy body,
closing function-tag; the name capture is one-or-more non-gt characters. -/
def matchQwenFuncAt (cs : List Char) : Option (RawMatch × List Char) :=
  match dropPrefix? "<function=".data cs with
  | none => none
  | some r1 =>
    let p1 := r1.span (fun c => c ≠ '>')
    if p1.1.isEmpty then none
    else
      match dropPrefix? [('>' : Char)] p1.2 with
      | none => none
      | some r2 =>
        match splitFirst "</function>".data r2 with
        | none => none
        | some (body, rest) =>
          some (⟨p1.1, body, cs.take (cs.length - rest.length)⟩, rest)

/-- Grammar 2 parameter matcher: parameter=key tag, lazy value, closing
parameter-tag. -/
def matchQwenParamAt (cs : List Char) : Option ((List Char × List Char) × List Char) :=
  match dropPrefix? "<parameter=".data cs with
  | none => none
  | some r1 =>
    let p1 := r1.span (fun c => c ≠ '>')
    if p1.1.isEmpty then none
    else
      match dropPrefix? [('>' : Char)] p1.2 with
      | none => none
      | some r2 =>
        match splitFirst "</parameter>".data r2 with
        | none => none
        | some (v, rest) => some ((p1.1, v), rest)

/-- Grammar 3 single-alternative attempt: an opening tag that is exactly
the given tool name, a lazy body, and the matching closing tag (the
regex backreference). -/
def tryNameAt (nm : String) (cs : List Char) : Option (RawMatch × List Char) :=
  match dropPrefix? ('<' :: nm.data ++ [('>' : Char)]) cs with
  | none => none
  | some r1 =>
    match splitFirst ('<' :: '/' :: nm.data ++ [('>' : Char)]) r1 with
    | none => none
    | some (body, rest) =>
      some (⟨nm.data, body, cs.take (cs.length - rest.length)⟩, rest)

/-- Grammar 3 matcher: the name alternation is tried in list order at
each position, exactly as the regex alternation built by joining the
known tool names. -/
def matchSimpleAt (names : List String) (cs : List Char) : Option (RawMatch × List Char) :=
  match names with
  | [] => none
  | nm :: rest =>
    match tryNameAt nm cs with
    | some r => some r
    | none => matchSimpleAt rest cs

def isTagStart (c : Char) : Bool :=
  ('a' ≤ c && c ≤ 'z') || ('A' ≤ c && c ≤ 'Z') || c == '_'

def isWordChar (c : Char) : Bool :=
  ('a' ≤ c && c ≤ 'z') || ('A' ≤ c && c ≤ 'Z') || ('0' ≤ c && c ≤ '9') || c == '_'

/-- Grammar 3 inner parameter matcher: a word-character tag name, lazy
value and the backreferenced closing tag.  ASCII word characters model
the character classes of the source pattern. -/
def matchInnerAt (cs : List Char) : Option ((List Char × List Char) × List Char) :=
  match cs with
  | '<' :: c0 :: r2 =>
    if isTagStart c0 then
      let p := r2.span isWordChar
      match dropPrefix? [('>' : Char)] p.2 with
      | none => none
      | some r4 =>
        match splitFirst ('<' :: '/' :: c0 :: p.1 ++ [('>' : Char)]) r4 with
        | none => none
        | some (v, rest) => some (((c0 :: p.1, v), rest))
    else none
  | _ => none

/-- Remove every match of the wrapper-tag pattern: an opening angle
bracket, an optional slash, the literal tag name, any run of non-gt
characters, and a closing angle bracket (the re.sub cleanup calls). -/
def matchWrapperAt (tag : List Char) (cs : List Char) : Option (Unit × List Char) :=
  match cs with
  | '<' :: r1 =>
    let r2 := match dropPrefix? [('/' : Char)] r1 with
      | some r => r
      | none => r1
    match dropPrefix? tag r2 with
    | none => none
    | some r3 =>
      let p := r3.span (fun c => c ≠ '>')
      match dropPrefix? [('>' : Char)] p.2 with
      | none => none
      | some rest => some ((), rest)
  | _ => none

def removeTagAux (tag : List Char) : Nat → List Char → List Char
  | 0, cs => cs
  | _ + 1, [] => []
  | fuel + 1, c :: cs =>
    match matchWrapperAt tag (c :: cs) with
    | some (_, rest) => removeTagAux tag fuel rest
    | none => c :: removeTagAux tag fuel cs

def removeTag (tag : String) (cs : List Char) : List Char :=
  removeTagAux tag.data cs.length cs

/-- Build a params dict from matched key-value pairs in order, with
Python dict assignment semantics. -/
def paramsDict (ps : List (String × String)) : List (String × String) :=
  ps.foldl
    (fun d kv =>
      if d.any (fun e => e.1 == kv.1) then
        d.map (fun e => if e.1 == kv.1 then (kv.1, kv.2) else e)
      else d ++ [kv])
    []

/-- Parameters of a grammar 1 body: keys as captured, values stripped. -/
def params1 (body : List Char) : List (String × String) :=
  paramsDict ((findAll matchParamAt body).map
    (fun kv => (String.mk kv.1, pyStrip (String.mk kv.2))))

/-- Parameters of a grammar 2 body: keys and values stripped. -/
def params2 (body : List Char) : List (String × String) :=
  paramsDict ((findAll matchQwenParamAt body).map
    (fun kv => (pyStrip (String.mk kv.1), pyStrip (String.mk kv.2))))

/-- Parameters of a grammar 3 body: keys as captured, values stripped. -/
def params3 (body : List Char) : List (String × String) :=
  paramsDict ((findAll matchInnerAt body).map
    (fun kv => (String.mk kv.1, pyStrip (String.mk kv.2))))

/-- Synthesize the tool-call records for one grammar, with a fresh
call-prefixed id per call (uuid hex modelled by the generator). -/
def mkToolCallsAux (gen : Nat → String) : Nat → List (String × String) → List ToolCall
  | _, [] => []
  | i, (n, a) :: rest => ⟨"call_" ++ gen i, n, a⟩ :: mkToolCallsAux gen (i + 1) rest

def mkToolCalls (gen : Nat → String) (l : List (String × String)) : List ToolCall :=
  mkToolCallsAux gen 0 l

/-- Model of the source extractor: three grammars tried in order against
the original text, first grammar with at least one (for grammars 2 and 3,
at least one with non-empty params) match wins; matched spans are removed
from the running remainder, wrapper tags are cleaned, and the remainder
is stripped.  A missing known-tools argument is the empty list. -/
def extractToolCallsFromText (gen : Nat → String) (text : String)
    (knownTools : List String) : List ToolCall × String :=
  let cs := text.data
  let ms1 := findAll matchInvokeAt cs
  let rem1 := ms1.foldl (fun acc m => removeAll m.g0 acc) cs
  let rem1b := removeTag "action" (removeTag "function_calls" rem1)
  if ms1.isEmpty = false then
    (mkToolCalls gen (ms1.map (fun m => (String.mk m.name, dumpsStrPairs (params1 m.body)))),
     String.mk (pyStripChars rem1b))
  else
    let ms2 := (findAll matchQwenFuncAt cs).filter (fun m => (params2 m.body).isEmpty = false)
    let rem2 := ms2.foldl (fun acc m => removeAll m.g0 acc) rem1b
    let rem2b := removeAll "<tool_call>".data (removeAll "</tool_call>".data rem2)
    if ms2.isEmpty = false then
      (mkToolCalls gen
        (ms2.map (fun m => (pyStrip (String.mk m.name), dumpsStrPairs (params2 m.body)))),
       String.mk (pyStripChars rem2b))
    else if knownTools.isEmpty = false then
      let ms3 := (findAll (matchSimpleAt knownTools) cs).filter
        (fun m => (params3 m.body).isEmpty = false)
      let rem3 := ms3.foldl (fun acc m => removeAll m.g0 acc) rem2b
      let rem3b := removeTag "function_calls" (removeTag "action" rem3)
      (mkToolCalls gen (ms3.map (fun m => (String.mk m.name, dumpsStrPairs (params3 m.body)))),
       String.mk (pyStripChars rem3b))
    else ([], String.mk (pyStripChars rem2b))

/-! Backend response model and the shared preprocessing step. -/

/-- The fields extracted from one complete backend chat completion:
message content and reasoning (empty string when absent or null),
structured tool calls, the finish reason (the source supplies
end_turn as the lookup default), and the usage counters. -/
structure BackendResp where
  content : String
  reasoning : String
  toolCalls : List ToolCall
  finishReason : String
  promptTokens : Nat
  completionTokens : Nat

/-- Model of the response preprocessing: when no structured tool calls
arrived, the content is non-empty and tool names are known, run the
extractor; a non-empty extraction replaces the tool calls and content
and forces the tool-call sentinel finish reason. -/
def processOllamaResponse (gen : Nat → String) (knownTools : List String)
    (r : BackendResp) : String × String × List ToolCall × String :=
  if r.toolCalls.isEmpty && !(r.content == "") && !knownTools.isEmpty then
    let e := extractToolCallsFromText gen r.content knownTools
    if e.1.isEmpty then (r.content, r.reasoning, r.toolCalls, r.finishReason)
    else (e.2, r.reasoning, e.1, "tool_calls")
  else (r.content, r.reasoning, r.toolCalls, r.finishReason)

/-- Anthropic-side content block (the inbound-only tool_result variant
is not produced by any response translator). -/
inductive ContentBlock where
  | text (s : String)
  | thinking (s : String)
  | toolUse (id : String) (name : String) (input : JsonValue)

/-- Parse a tool-call arguments string, recovering from malformed JSON
by wrapping the original string under the raw key. -/
def parseToolInput (args : String) : JsonValue :=
  match parseJson args with
  | some j => j
  | none => JsonValue.obj [("raw", JsonValue.str args)]

/-- Tool-use id of the sync path: a backend id is kept only when it
already carries the Anthropic prefix, otherwise a fresh prefixed id is
generated. -/
def syncToolUseId (gen : Nat → String) (i : Nat) (rawId : String) : String :=
  if pyStartswith rawId "toolu_" then rawId else "toolu_" ++ gen i

/-- The tool_use blocks of the sync path, one per call in order. -/
def buildToolBlocks (gen : Nat → String) : Nat → List ToolCall → List ContentBlock
  | _, [] => []
  | i, tc :: rest =>
    ContentBlock.toolUse (syncToolUseId gen i tc.id) tc.name (parseToolInput tc.arguments)
      :: buildToolBlocks gen (i + 1) rest

/-- Content blocks of the sync path before the emptiness fallback:
thinking (when reasoning present), text (when content present), one
tool_use per call. -/
def syncBlocksCore (gen : Nat → String) (reasoning content : String)
    (tcs : List ToolCall) : List ContentBlock :=
  (if reasoning = "" then [] else [ContentBlock.thinking reasoning]) ++
  (if content = "" then [] else [ContentBlock.text content]) ++
  buildToolBlocks gen 0 tcs

/-- Content blocks of the sync path; when nothing resulted, a single
text block holding the reasoning-or-empty fallback. -/
def syncBlocks (gen : Nat → String) (reasoning content : String)
    (tcs : List ToolCall) : List ContentBlock :=
  if (syncBlocksCore gen reasoning content tcs).isEmpty then
    [ContentBlock.text (pyOr reasoning "")]
  else syncBlocksCore gen reasoning content tcs

/-- Finish-reason mapping shared by the sync and pseudo-stream paths. -/
def mapStopReason (fr : String) : String :=
  if fr = "tool_calls" then "tool_use" else if fr = "stop" then "end_turn" else fr

/-- One complete Anthropic response as the sync path emits it. -/
structure AnthropicResponse where
  id : String
  content : List ContentBlock
  model : String
  stopReason : String
  inputTokens : Nat
  outputTokens : Nat

/-- The synchronous response translator. -/
def handleSync (gen : Nat → String) (msgIdHex model : String)
    (knownTools : List String) (r : BackendResp) : AnthropicResponse :=
  { id := "msg_" ++ msgIdHex
    content := syncBlocks gen (processOllamaResponse gen knownTools r).2.1
      (processOllamaResponse gen knownTools r).1
      (processOllamaResponse gen knownTools r).2.2.1
    model := model
    stopReason := mapStopReason (processOllamaResponse gen knownTools r).2.2.2
    inputTokens := r.promptTokens
    outputTokens := r.completionTokens }

/-! Stream events.  The start payload of a tool_use block always carries
an empty input object in the source, and the message_start usage always
carries zero output tokens; both constants are left implicit here. -/

inductive BlockStartPayload where
  | thinking (s : String)
  | text (s : String)
  | toolUse (id : String) (name : String)
deriving Repr, DecidableEq

inductive DeltaPayload where
  | thinkingDelta (s : String)
  | textDelta (s : String)
  | inputJsonDelta (partialJson : String)
deriving Repr, DecidableEq

inductive SseEvent where
  | messageStart (msgId : String) (model : String) (inputTokens : Nat)
  | blockStart (index : Nat) (payload : BlockStartPayload)
  | blockDelta (index : Nat) (payload : DeltaPayload)
  | blockStop (index : Nat)
  | messageDelta (stopReason : String) (outputTokens : Nat)
  | messageStop
deriving Repr, DecidableEq

/-- The pseudo-stream tool pairs: start payload with an always-fresh
prefixed id, and a single delta carrying the complete JSON arguments. -/
def buildToolPairs (gen : Nat → String) :
    Nat → List ToolCall → List (BlockStartPayload × DeltaPayload)
  | _, [] => []
  | i, tc :: rest =>
    (BlockStartPayload.toolUse ("toolu_" ++ gen i) tc.name,
      DeltaPayload.inputJsonDelta (jsonDumps (parseToolInput tc.arguments)))
      :: buildToolPairs gen (i + 1) rest

/-- Block list of the pseudo-stream path, in emission order. -/
def sseBlockPairs (gen : Nat → String) (reasoning content : String)
    (tcs : List ToolCall) : List (BlockStartPayload × DeltaPayload) :=
  (if reasoning = "" then []
   else [(BlockStartPayload.thinking "", DeltaPayload.thinkingDelta reasoning)]) ++
  (if content = "" then []
   else [(BlockStartPayload.text "", DeltaPayload.textDelta content)]) ++
  buildToolPairs gen 0 tcs

/-- Emit the start, single delta and stop of each block at consecutive
indices starting from the given one. -/
def emitBlocks : Nat → List (BlockStartPayload × DeltaPayload) → List SseEvent
  | _, [] => []
  | i, (b, d) :: rest =>
    SseEvent.blockStart i b :: SseEvent.blockDelta i d :: SseEvent.blockStop i
      :: emitBlocks (i + 1) rest

/-- Block events of the pseudo-stream path, including the placeholder
block the source emits when no block was produced at all. -/
def sseBlockEvents (gen : Nat → String) (reasoning content : String)
    (tcs : List ToolCall) : List SseEvent :=
  if (sseBlockPairs gen reasoning content tcs).isEmpty then
    emitBlocks 0 [(BlockStartPayload.text "", DeltaPayload.textDelta "(empty response)")]
  else emitBlocks 0 (sseBlockPairs gen reasoning content tcs)

/-- The pseudo-stream response translator: a complete backend response
re-emitted as one uninterrupted burst of Anthropic stream events. -/
def handleSyncAsSse (gen : Nat → String) (msgIdHex model : String)
    (knownTools : List String) (r : BackendResp) : List SseEvent :=
  SseEvent.messageStart ("msg_" ++ msgIdHex) model r.promptTokens ::
    sseBlockEvents gen (processOllamaResponse gen knownTools r).2.1
      (processOllamaResponse gen knownTools r).1
      (processOllamaResponse gen knownTools r).2.2.1
    ++ [SseEvent.messageDelta (mapStopReason (processOllamaResponse gen knownTools r).2.2.2)
          r.completionTokens,
        SseEvent.messageStop]

/-! The true-stream translator.  Its input is the sequence of decoded
backend increments: the reasoning and content fields of each data
chunk delta (empty string when absent), after the line framing and JSON
decoding the source performs before this state machine runs. -/

structure StreamDelta where
  reasoning : String
  content : String

structure StreamState where
  totalTokens : Nat
  inReasoning : Bool
  reasoningStarted : Bool
  contentStarted : Bool
  contentIndex : Nat

/-- One decoded increment: the reasoning branch first (opening a
thinking block once), then the text branch (closing an open thinking
block, advancing the index, opening a text block once). -/
def stepStream (st : StreamState) (d : StreamDelta) : StreamState × List SseEvent :=
  let r1 : StreamState × List SseEvent :=
    if d.reasoning = "" then (st, [])
    else
      let r0 : StreamState × List SseEvent :=
        if st.reasoningStarted then (st, [])
        else ({ st with reasoningStarted := true, inReasoning := true },
          [SseEvent.blockStart st.contentIndex (BlockStartPayload.thinking "")])
      ({ r0.1 with totalTokens := r0.1.totalTokens + 1 },
        r0.2 ++ [SseEvent.blockDelta r0.1.contentIndex (DeltaPayload.thinkingDelta d.reasoning)])
  if d.content = "" then (r1.1, r1.2)
  else
    let rA : StreamState × List SseEvent :=
      if r1.1.inReasoning then
        ({ r1.1 with contentIndex := r1.1.contentIndex + 1, inReasoning := false },
          [SseEvent.blockStop r1.1.contentIndex])
      else (r1.1, [])
    let rB : StreamState × List SseEvent :=
      if rA.1.contentStarted then (rA.1, [])
      else ({ rA.1 with contentStarted := true },
        [SseEvent.blockStart rA.1.contentIndex (BlockStartPayload.text "")])
    ({ rB.1 with totalTokens := rB.1.totalTokens + 1 },
      r1.2 ++ rA.2 ++ rB.2
        ++ [SseEvent.blockDelta rB.1.contentIndex (DeltaPayload.textDelta d.content)])

def runStream : StreamState → List StreamDelta → StreamState × List SseEvent
  | st, [] => (st, [])
  | st, d :: ds =>
    let r := stepStream st d
    let r2 := runStream r.1 ds
    (r2.1, r.2 ++ r2.2)

/-- End-of-stream epilogue: close an open thinking block; when no text
block was ever started, emit the thinking-limit placeholder delta (with
a preceding start only when a thinking block had started); then the
final stop, message_delta and message_stop. -/
def finishStream (st : StreamState) : List SseEvent :=
  let r1 : StreamState × List SseEvent :=
    if st.inReasoning then
      ({ st with contentIndex := st.contentIndex + 1 }, [SseEvent.blockStop st.contentIndex])
    else (st, [])
  let evs2 : List SseEvent :=
    if r1.1.contentStarted then []
    else
      (if r1.1.reasoningStarted then
        [SseEvent.blockStart r1.1.contentIndex (BlockStartPayload.text "")]
       else []) ++
      [SseEvent.blockDelta r1.1.contentIndex (DeltaPayload.textDelta "(thinking limit reached)")]
  r1.2 ++ evs2 ++
    [SseEvent.blockStop r1.1.contentIndex,
     SseEvent.messageDelta "end_turn" r1.1.totalTokens,
     SseEvent.messageStop]

/-- The true-stream response translator over a sequence of decoded
increments. -/
def handleStream (msgIdHex model : String) (ds : List StreamDelta) : List SseEvent :=
  SseEvent.messageStart ("msg_" ++ msgIdHex) model 0 ::
    (runStream ⟨0, false, false, false, 0⟩ ds).2
    ++ finishStream (runStream ⟨0, false, false, false, 0⟩ ds).1

/-! Request-translator pieces touched by the claims. -/

def MAX_TOKENS_CAP : Nat := 4096

def SYSTEM_PROMPT_MAX_CHARS : Nat := 4000

def ALLOWED_TOOLS : List String :=
  ["Bash", "Read", "Write", "Edit", "Glob", "Grep", "WebFetch", "WebSearch", "NotebookEdit"]

structure ToolSpec where
  name : String
deriving Repr, DecidableEq

/-- The inbound system field: a plain string or a sequence of typed
blocks, each a type tag and a text. -/
inductive SystemField where
  | str (s : String)
  | blocks (bs : List (String × String))

structure AnthropicRequest where
  model : Option String
  maxTokens : Option Nat
  stream : Bool
  system : SystemField
  tools : List ToolSpec

/-- Allow-list filtering of the inbound tools (the allow-list is
configured non-null in the source, and filtering an empty list is the
identity, matching the guarded source statement). -/
def filterTools (ts : List ToolSpec) : List ToolSpec :=
  ts.filter (fun t => ALLOWED_TOOLS.contains t.name)

def currentToolNames (req : AnthropicRequest) : List String :=
  (filterTools req.tools).map (fun t => t.name)

def hasTools (req : AnthropicRequest) : Bool :=
  !(filterTools req.tools).isEmpty

/-- The streaming flag actually sent to the backend: streaming is forced
off when tools survive filtering. -/
def backendStreamFlag (req : AnthropicRequest) : Bool :=
  if hasTools req && req.stream then false else req.stream

/-- Python truthiness of the system field: a non-empty string or a
non-empty block list. -/
def systemTruthy : SystemField → Bool
  | .str s => !s.data.isEmpty
  | .blocks bs => !bs.isEmpty

/-- Newline-joined text of the system field (text blocks only). -/
def joinedSystemText : SystemField → String
  | .str s => s
  | .blocks bs =>
    String.intercalate "\n" ((bs.filter (fun b => b.1 == "text")).map (fun b => b.2))

/-- Python character slicing s[:n]. -/
def pyTake (s : String) (n : Nat) : String := String.mk (s.data.take n)

def truncSuffix : String := "\n...(truncated for local model)"

/-- The function-calling directive appended when tools survive, naming
at most the first fifteen allowed tools. -/
def fcHint (toolNames : List String) : String :=
  "\n\n[IMPORTANT: FUNCTION CALLING]\n" ++
  "You have tools available via function calling: " ++
  String.intercalate ", " (toolNames.take 15) ++ ".\n" ++
  "When you need to perform any action, you MUST use function calls.\n" ++
  "Do NOT write commands as plain text. Do NOT output XML tags.\n" ++
  "Use the function calling mechanism provided by the API.\n" ++
  "Always prefer Bash tool for system commands. Do NOT use Task or AskUserQuestion.\n"

/-- The system message content forwarded to the backend: none when the
system field is falsy; otherwise the joined text, truncated with the
marker when over the cap, with the function-calling directive appended
when tools survive filtering. -/
def systemMessageText (req : AnthropicRequest) : Option String :=
  if systemTruthy req.system then
    let s0 := joinedSystemText req.system
    let s1 := if SYSTEM_PROMPT_MAX_CHARS < s0.length then
        pyTake s0 SYSTEM_PROMPT_MAX_CHARS ++ truncSuffix
      else s0
    some (if hasTools req then s1 ++ fcHint (currentToolNames req) else s1)
  else none

/-- The claim-relevant scalar fields of the backend request. -/
structure OaiMeta where
  model : String
  maxTokens : Nat
  stream : Bool
  systemText : Option String

def buildBackendMeta (req : AnthropicRequest) : OaiMeta :=
  { model := req.model.getD "qwen3-coder:30b"
    maxTokens := min (req.maxTokens.getD 4096) MAX_TOKENS_CAP
    stream := backendStreamFlag req
    systemText := systemMessageText req }

/-- Which response translator the handler dispatches to, from the forced
backend flag and the original client intent. -/
inductive RespMode where
  | trueStream
  | pseudoSse
  | sync
deriving Repr, DecidableEq

def responseMode (req : AnthropicRequest) : RespMode :=
  if backendStreamFlag req then .trueStream
  else if req.stream then .pseudoSse
  else .sync

/-! Decidable well-formedness checkers for emitted event sequences. -/

/-- Scan the block events: a start is legal only when no block is open
and its index is the next unused one; a delta or stop only for the open
index; a stop closes the block and moves the expected index past it; at
the end no block may remain open.  Message-level events are skipped. -/
def blocksOkAux : Option Nat → Nat → List SseEvent → Bool
  | openIdx, _, [] => openIdx.isNone
  | openIdx, next, ev :: rest =>
    match ev with
    | .blockStart i _ => openIdx.isNone && i == next && blocksOkAux (some i) next rest
    | .blockDelta i _ => openIdx == some i && blocksOkAux openIdx next rest
    | .blockStop i => openIdx == some i && blocksOkAux none (i + 1) rest
    | _ => blocksOkAux openIdx next rest

def blocksOk (evs : List SseEvent) : Bool := blocksOkAux none 0 evs

/-- Shape of a complete pseudo-stream body: per-block triples at
consecutive indices, then message_delta and message_stop. -/
def sseTail : Nat → List SseEvent → Bool
  | _, [SseEvent.messageDelta _ _, SseEvent.messageStop] => true
  | i, SseEvent.blockStart j _ :: SseEvent.blockDelta k _ :: SseEvent.blockStop l :: rest =>
    j == i && k == i && l == i && sseTail (i + 1) rest
  | _, _ => false

/-- A complete SSE burst: message_start, block triples, message_delta,
message_stop. -/
def completeSse : List SseEvent → Bool
  | SseEvent.messageStart _ _ _ :: rest => sseTail 0 rest
  | _ => false

/-! Theorems. -/

theorem string_data_append (s t : String) : (s ++ t).data = s.data ++ t.data := rfl

theorem isPrefixOf_append_self (l m : List Char) : l.isPrefixOf (l ++ m) = true := by
  induction l with
  | nil => simp
  | cons c cs ih => simp [List.isPrefixOf, ih]

theorem pyStartswith_toolu_append (s : String) :
    pyStartswith ("toolu_" ++ s) "toolu_" = true := by
  show ("toolu_" : String).data.isPrefixOf (("toolu_" ++ s)).data = true
  rw [string_data_append]
  exact isPrefixOf_append_self _ _

/-- C1: the block-index invariant is claimed for every increment
sequence, including a backend stream with no reasoning and no text
deltas; on that empty sequence the translator emits a
content_block_delta and a content_block_stop for index 0 without ever
emitting a content_block_start, so the invariant checker rejects the
emitted sequence. -/
theorem c1_empty_stream_violates_block_invariant :
    handleStream "h" "m" [] =
      [SseEvent.messageStart "msg_h" "m" 0,
       SseEvent.blockDelta 0 (DeltaPayload.textDelta "(thinking limit reached)"),
       SseEvent.blockStop 0,
       SseEvent.messageDelta "end_turn" 0,
       SseEvent.messageStop] ∧
    blocksOk (handleStream "h" "m" []) = false :=
  ⟨rfl, rfl⟩

def emptyBackendResp : BackendResp := ⟨"", "", [], "stop", 0, 0⟩

/-- C3 counterexample: on a backend response with empty content, empty
reasoning and no tool calls, the pseudo-stream translator emits one text
block whose single delta carries the placeholder text, not the empty
string the claim asserts for both translators. -/
theorem c3_pseudo_placeholder_not_empty :
    handleSyncAsSse (fun _ => "h") "h" "m" ["Bash"] emptyBackendResp =
      [SseEvent.messageStart "msg_h" "m" 0,
       SseEvent.blockStart 0 (BlockStartPayload.text ""),
       SseEvent.blockDelta 0 (DeltaPayload.textDelta "(empty response)"),
       SseEvent.blockStop 0,
       SseEvent.messageDelta "end_turn" 0,
       SseEvent.messageStop] ∧
    "(empty response)" ≠ "" :=
  ⟨rfl, by decide⟩

/-- C3 amended: a backend response with empty content, empty reasoning
and empty tool_calls still yields exactly one ContentBlock in both
translators, and that block is a text block; the block of the sync
translator carries the empty string, while the single block of the
pseudo-stream translator carries the fixed placeholder delta. -/
theorem c3_amended_one_block_on_empty (gen : Nat → String) (msgIdHex model : String)
    (kt : List String) (r : BackendResp)
    (h1 : r.content = "") (h2 : r.reasoning = "") (h3 : r.toolCalls = []) :
    (handleSync gen msgIdHex model kt r).content = [ContentBlock.text ""] ∧
    handleSyncAsSse gen msgIdHex model kt r =
      [SseEvent.messageStart ("msg_" ++ msgIdHex) model r.promptTokens,
       SseEvent.blockStart 0 (BlockStartPayload.text ""),
       SseEvent.blockDelta 0 (DeltaPayload.textDelta "(empty response)"),
       SseEvent.blockStop 0,
       SseEvent.messageDelta (mapStopReason r.finishReason) r.completionTokens,
       SseEvent.messageStop] := by
  have hp : processOllamaResponse gen kt r =
      (r.content, r.reasoning, r.toolCalls, r.finishReason) := by
    simp [processOllamaResponse, h1]
  constructor
  · simp [handleSync, hp, h1, h2, h3, syncBlocks, syncBlocksCore, buildToolBlocks, pyOr]
  · simp [handleSyncAsSse, hp, h1, h2, h3, sseBlockEvents, sseBlockPairs, buildToolPairs,
      emitBlocks]

theorem c3_amended_witness :
    emptyBackendResp.content = "" ∧ emptyBackendResp.reasoning = "" ∧
    emptyBackendResp.toolCalls = [] ∧
    ((handleSync (fun _ => "h") "h" "m" [] emptyBackendResp).content =
        [ContentBlock.text ""] ∧
      handleSyncAsSse (fun _ => "h") "h" "m" [] emptyBackendResp =
        [SseEvent.messageStart "msg_h" "m" 0,
         SseEvent.blockStart 0 (BlockStartPayload.text ""),
         SseEvent.blockDelta 0 (DeltaPayload.textDelta "(empty response)"),
         SseEvent.blockStop 0,
         SseEvent.messageDelta (mapStopReason emptyBackendResp.finishReason) 0,
         SseEvent.messageStop]) :=
  ⟨rfl, rfl, rfl, c3_amended_one_block_on_empty (fun _ => "h") "h" "m" [] emptyBackendResp
    rfl rfl rfl⟩

def c4BackendResp : BackendResp :=
  ⟨"", "", [⟨"", "Bash", "\x7b\"command\":\"ls\"\x7d"⟩], "tool_calls", 3, 5⟩

/-- C4: a complete backend response with empty content and one
structured Bash tool call (finish reason tool_calls, as the backend
reports for a tool-call completion) translates to exactly one tool_use
block named Bash whose input is the parsed arguments object, with
stop_reason tool_use. -/
theorem c4_structured_tool_call_roundtrip (gen : Nat → String) (msgIdHex model : String)
    (kt : List String) :
    (handleSync gen msgIdHex model kt c4BackendResp).content =
      [ContentBlock.toolUse ("toolu_" ++ gen 0) "Bash"
        (JsonValue.obj [("command", JsonValue.str "ls")])] ∧
    (handleSync gen msgIdHex model kt c4BackendResp).stopReason = "tool_use" :=
  ⟨rfl, rfl⟩

/-- C8: the extractor on the invoke-style markup with no known-tool
restriction salvages exactly one call named Read whose JSON-encoded
arguments decode to the expected one-key object, and the cleaned text
is empty. -/
theorem c8_invoke_extraction (gen : Nat → String) :
    extractToolCallsFromText gen
      "<invoke name=\"Read\"><parameter name=\"file_path\">/tmp/x</parameter></invoke>" [] =
      ([⟨"call_" ++ gen 0, "Read", "\x7b\"file_path\": \"/tmp/x\"\x7d"⟩], "") ∧
    parseJson "\x7b\"file_path\": \"/tmp/x\"\x7d" =
      some (JsonValue.obj [("file_path", JsonValue.str "/tmp/x")]) :=
  ⟨rfl, rfl⟩

/-- C9: the third grammar fires only on a tag exactly matching a known
tool name: with Bash known the markup yields one call, with only Read
known it yields none. -/
theorem c9_grammar3_known_name_gate (gen : Nat → String) :
    (extractToolCallsFromText gen "<Bash><command>ls</command></Bash>" ["Bash"]).1 =
      [⟨"call_" ++ gen 0, "Bash", "\x7b\"command\": \"ls\"\x7d"⟩] ∧
    (extractToolCallsFromText gen "<Bash><command>ls</command></Bash>" ["Read"]).1 = [] :=
  ⟨rfl, rfl⟩

/-- C6: the max_tokens forwarded to the backend is the requested value
clamped to the configured cap. -/
theorem c6_max_tokens_clamped (req : AnthropicRequest) (n : Nat)
    (h : req.maxTokens = some n) :
    (buildBackendMeta req).maxTokens = min n MAX_TOKENS_CAP := by
  simp [buildBackendMeta, h]

theorem c6_max_tokens_witness :
    (⟨none, some 32000, false, SystemField.str "", []⟩ : AnthropicRequest).maxTokens =
      some 32000 ∧
    (buildBackendMeta ⟨none, some 32000, false, SystemField.str "", []⟩).maxTokens =
      min 32000 MAX_TOKENS_CAP :=
  ⟨rfl, c6_max_tokens_clamped _ 32000 rfl⟩

theorem string_length_append (s t : String) : (s ++ t).length = s.length + t.length := by
  show ((s ++ t)).data.length = s.data.length + t.data.length
  rw [string_data_append, List.length_append]

theorem isEmpty_false_of_length (l : List Char) (n : Nat) (h : l.length = n) (hn : n ≠ 0) :
    l.isEmpty = false := by
  cases l with
  | nil => simp at h; omega
  | cons a as => rfl

def bigSys : String := String.mk (List.replicate 6000 'a')

theorem bigSys_length : bigSys.length = 6000 := by
  show (List.replicate 6000 'a').length = 6000
  rw [List.length_replicate]

def c7req : AnthropicRequest := ⟨none, none, false, SystemField.str bigSys, [⟨"Bash"⟩]⟩

theorem pyTake_bigSys_length : (pyTake bigSys 4000).length = 4000 := by
  show ((List.replicate 6000 'a').take 4000).length = 4000
  rw [List.length_take, List.length_replicate]
  decide

theorem systemTruthy_of_length (sf : SystemField)
    (h : (joinedSystemText sf).length = 6000) : systemTruthy sf = true := by
  cases sf with
  | str s =>
    have h2 : s.data.length = 6000 := h
    simp only [systemTruthy]
    rw [isEmpty_false_of_length s.data 6000 h2 (by omega)]
    rfl
  | blocks bs =>
    cases bs with
    | nil =>
      have h0 : ("" : String).length = 6000 := h
      exact absurd h0 (by decide)
    | cons b rest => rfl

set_option maxRecDepth 8192 in
/-- C7 counterexample: on a request whose system prompt has 6000
characters but which also carries an allowed tool, the forwarded system
text is the truncated prompt plus the truncation marker plus the
function-calling directive, so its length is not 4000 plus the marker
length and it does not end in the marker. -/
theorem c7_hint_after_suffix_counterexample :
    systemMessageText c7req =
      some (pyTake bigSys 4000 ++ truncSuffix ++ fcHint ["Bash"]) ∧
    (systemMessageText c7req).map String.length ≠ some (4000 + truncSuffix.length) := by
  have htruthy : systemTruthy c7req.system = true := systemTruthy_of_length _ bigSys_length
  have hcond : SYSTEM_PROMPT_MAX_CHARS < (joinedSystemText c7req.system).length := by
    have hb : (joinedSystemText c7req.system).length = 6000 := bigSys_length
    rw [hb]
    decide
  have hht : hasTools c7req = true := rfl
  have heq : systemMessageText c7req =
      some (pyTake bigSys 4000 ++ truncSuffix ++ fcHint ["Bash"]) := by
    simp only [systemMessageText, htruthy, hcond, hht, if_true, if_pos]
    rfl
  refine ⟨heq, ?_⟩
  rw [heq]
  have hlen : (pyTake bigSys 4000 ++ truncSuffix ++ fcHint ["Bash"]).length =
      4000 + truncSuffix.length + (fcHint ["Bash"]).length := by
    rw [string_length_append, string_length_append, pyTake_bigSys_length]
  have hpos : (fcHint ["Bash"]).length ≠ 0 := by decide
  intro h
  have h2 := Option.some.inj h
  rw [hlen] at h2
  omega

/-- C7 amended: on a request whose joined system prompt has 6000
characters and which carries no tool after allow-list filtering, the
forwarded system text has length 4000 plus the truncation-marker length
and ends in that marker; when tools survive, the function-calling
directive is appended after the marker (see the counterexample). -/
theorem c7_truncation_no_tools (req : AnthropicRequest)
    (hlen : (joinedSystemText req.system).length = 6000)
    (hnt : hasTools req = false) :
    ∃ t, systemMessageText req = some t ∧
      t.length = 4000 + truncSuffix.length ∧
      truncSuffix.data <:+ t.data := by
  have htruthy : systemTruthy req.system = true := systemTruthy_of_length _ hlen
  have hcond : SYSTEM_PROMPT_MAX_CHARS < (joinedSystemText req.system).length := by
    rw [hlen]; decide
  refine ⟨pyTake (joinedSystemText req.system) SYSTEM_PROMPT_MAX_CHARS ++ truncSuffix,
    ?_, ?_, ?_⟩
  · simp only [systemMessageText, htruthy, hcond, hnt, if_true, if_pos, if_false,
      Bool.false_eq_true, ite_false]
  · rw [string_length_append]
    have ht : (pyTake (joinedSystemText req.system) SYSTEM_PROMPT_MAX_CHARS).length = 4000 := by
      show ((joinedSystemText req.system).data.take SYSTEM_PROMPT_MAX_CHARS).length = 4000
      rw [List.length_take]
      have hd : (joinedSystemText req.system).data.length = 6000 := hlen
      rw [hd]
      decide
    rw [ht]
  · rw [string_data_append]
    exact List.suffix_append _ _

theorem c7_truncation_witness :
    (joinedSystemText (SystemField.str bigSys)).length = 6000 ∧
    hasTools ⟨none, none, false, SystemField.str bigSys, []⟩ = false ∧
    ∃ t, systemMessageText ⟨none, none, false, SystemField.str bigSys, []⟩ = some t ∧
      t.length = 4000 + truncSuffix.length ∧ truncSuffix.data <:+ t.data :=
  ⟨bigSys_length, rfl,
    c7_truncation_no_tools ⟨none, none, false, SystemField.str bigSys, []⟩ bigSys_length rfl⟩

theorem sseTail_emitBlocks (sr : String) (t : Nat)
    (pairs : List (BlockStartPayload × DeltaPayload)) :
    ∀ i, sseTail i
      (emitBlocks i pairs ++ [SseEvent.messageDelta sr t, SseEvent.messageStop]) = true := by
  induction pairs with
  | nil => intro i; rfl
  | cons p rest ih =>
    intro i
    obtain ⟨b, d⟩ := p
    simp only [emitBlocks, List.cons_append]
    simp [sseTail, ih]

theorem completeSse_cons_blocks (msgId model : String) (n : Nat) (gen : Nat → String)
    (re c : String) (tcs : List ToolCall) (sr : String) (t : Nat) :
    completeSse (SseEvent.messageStart msgId model n ::
      sseBlockEvents gen re c tcs ++
        [SseEvent.messageDelta sr t, SseEvent.messageStop]) = true := by
  simp only [completeSse]
  unfold sseBlockEvents
  by_cases hp : (sseBlockPairs gen re c tcs).isEmpty = true
  · rw [if_pos hp]; exact sseTail_emitBlocks _ _ _ 0
  · rw [if_neg hp]; exact sseTail_emitBlocks _ _ _ 0

theorem completeSse_handleSyncAsSse (gen : Nat → String) (msgIdHex model : String)
    (kt : List String) (r : BackendResp) :
    completeSse (handleSyncAsSse gen msgIdHex model kt r) = true := by
  unfold handleSyncAsSse
  exact completeSse_cons_blocks _ _ _ _ _ _ _ _ _

theorem getLast_cons_append_two (e a b : SseEvent) (l : List SseEvent) :
    (e :: (l ++ [a, b])).getLast? = some b := by
  have h : e :: (l ++ [a, b]) = (e :: (l ++ [a])) ++ [b] := by simp
  rw [h, List.getLast?_concat]

theorem last_handleSyncAsSse (gen : Nat → String) (msgIdHex model : String)
    (kt : List String) (r : BackendResp) :
    (handleSyncAsSse gen msgIdHex model kt r).getLast? = some SseEvent.messageStop := by
  unfold handleSyncAsSse
  exact getLast_cons_append_two _ _ _ _

/-- C2: on a request with at least one tool surviving allow-list
filtering and streaming requested, the backend request carries a false
stream flag; the handler dispatches to the pseudo-stream translator,
and for every backend response that translator emits a complete SSE
sequence of the form message_start, per-block start/delta/stop triples,
message_delta, message_stop, whose final event is message_stop. -/
theorem c2_tools_force_nonstream_sse (req : AnthropicRequest)
    (h1 : hasTools req = true) (h2 : req.stream = true) :
    (buildBackendMeta req).stream = false ∧
    responseMode req = RespMode.pseudoSse ∧
    ∀ (gen : Nat → String) (msgIdHex model : String) (kt : List String) (r : BackendResp),
      completeSse (handleSyncAsSse gen msgIdHex model kt r) = true ∧
      (handleSyncAsSse gen msgIdHex model kt r).getLast? = some SseEvent.messageStop := by
  refine ⟨?_, ?_, ?_⟩
  · simp [buildBackendMeta, backendStreamFlag, h1, h2]
  · simp [responseMode, backendStreamFlag, h1, h2]
  · intro gen msgIdHex model kt r
    exact ⟨completeSse_handleSyncAsSse gen msgIdHex model kt r,
      last_handleSyncAsSse gen msgIdHex model kt r⟩

def c2req : AnthropicRequest := ⟨none, some 1000, true, SystemField.str "", [⟨"Bash"⟩]⟩

theorem c2_witness :
    hasTools c2req = true ∧ c2req.stream = true ∧
    (buildBackendMeta c2req).stream = false ∧
    completeSse (handleSyncAsSse (fun _ => "u") "h" "m" ["Bash"] c4BackendResp) = true :=
  ⟨rfl, rfl, (c2_tools_force_nonstream_sse c2req rfl rfl).1,
    ((c2_tools_force_nonstream_sse c2req rfl rfl).2.2
      (fun _ => "u") "h" "m" ["Bash"] c4BackendResp).1⟩

theorem process_passthrough (gen : Nat → String) (kt : List String) (r : BackendResp)
    (h : r.toolCalls ≠ []) :
    processOllamaResponse gen kt r = (r.content, r.reasoning, r.toolCalls, r.finishReason) := by
  have he : r.toolCalls.isEmpty = false := by
    cases hc : r.toolCalls with
    | nil => exact absurd hc h
    | cons a as => rfl
  simp [processOllamaResponse, he]

theorem mem_buildToolBlocks (gen : Nat → String) :
    ∀ (tcs : List ToolCall) (k i : Nat) (h : i < tcs.length),
      ContentBlock.toolUse (syncToolUseId gen (k + i) (tcs.get ⟨i, h⟩).id)
          (tcs.get ⟨i, h⟩).name (parseToolInput (tcs.get ⟨i, h⟩).arguments)
        ∈ buildToolBlocks gen k tcs := by
  intro tcs
  induction tcs with
  | nil => intro k i h; exact absurd h (by simp)
  | cons tc rest ih =>
    intro k i h
    cases i with
    | zero =>
      simp only [List.get_cons_zero, Nat.add_zero, buildToolBlocks]
      exact List.mem_cons_self _ _
    | succ j =>
      have hj : j < rest.length := Nat.lt_of_succ_lt_succ h
      simp only [List.get_cons_succ, buildToolBlocks]
      refine List.mem_cons_of_mem _ ?_
      have hk : k + (j + 1) = (k + 1) + j := by omega
      rw [hk]
      exact ih (k + 1) j hj

theorem mem_buildToolPairs (gen : Nat → String) :
    ∀ (tcs : List ToolCall) (k i : Nat) (h : i < tcs.length),
      (BlockStartPayload.toolUse ("toolu_" ++ gen (k + i)) (tcs.get ⟨i, h⟩).name,
        DeltaPayload.inputJsonDelta (jsonDumps (parseToolInput (tcs.get ⟨i, h⟩).arguments)))
        ∈ buildToolPairs gen k tcs := by
  intro tcs
  induction tcs with
  | nil => intro k i h; exact absurd h (by simp)
  | cons tc rest ih =>
    intro k i h
    cases i with
    | zero =>
      simp only [List.get_cons_zero, Nat.add_zero, buildToolPairs]
      exact List.mem_cons_self _ _
    | succ j =>
      have hj : j < rest.length := Nat.lt_of_succ_lt_succ h
      simp only [List.get_cons_succ, buildToolPairs]
      refine List.mem_cons_of_mem _ ?_
      have hk : k + (j + 1) = (k + 1) + j := by omega
      rw [hk]
      exact ih (k + 1) j hj

theorem emitBlocks_mem_of_pair (b : BlockStartPayload) (d : DeltaPayload) :
    ∀ (pairs : List (BlockStartPayload × DeltaPayload)) (n : Nat),
      (b, d) ∈ pairs →
      ∃ j, SseEvent.blockStart j b ∈ emitBlocks n pairs ∧
        SseEvent.blockDelta j d ∈ emitBlocks n pairs := by
  intro pairs
  induction pairs with
  | nil => intro n h; cases h
  | cons p rest ih =>
    intro n h
    obtain ⟨b1, d1⟩ := p
    rw [List.mem_cons] at h
    cases h with
    | inl he =>
      obtain ⟨hb, hd⟩ := Prod.mk.inj he
      subst hb; subst hd
      refine ⟨n, ?_, ?_⟩
      · simp only [emitBlocks]
        exact List.mem_cons_self _ _
      · simp only [emitBlocks]
        exact List.mem_cons_of_mem _ (List.mem_cons_self _ _)
    | inr hm =>
      obtain ⟨j, h1, h2⟩ := ih (n + 1) hm
      refine ⟨j, ?_, ?_⟩
      · simp only [emitBlocks]
        exact List.mem_cons_of_mem _ (List.mem_cons_of_mem _ (List.mem_cons_of_mem _ h1))
      · simp only [emitBlocks]
        exact List.mem_cons_of_mem _ (List.mem_cons_of_mem _ (List.mem_cons_of_mem _ h2))

theorem pair_of_start_mem_emitBlocks (j : Nat) (b : BlockStartPayload) :
    ∀ (pairs : List (BlockStartPayload × DeltaPayload)) (n : Nat),
      SseEvent.blockStart j b ∈ emitBlocks n pairs → ∃ d, (b, d) ∈ pairs := by
  intro pairs
  induction pairs with
  | nil => intro n h; simp [emitBlocks] at h
  | cons p rest ih =>
    intro n h
    obtain ⟨b1, d1⟩ := p
    simp only [emitBlocks] at h
    rw [List.mem_cons] at h
    cases h with
    | inl he =>
      injection he with hj hb
      subst hb
      exact ⟨d1, List.mem_cons_self _ _⟩
    | inr h2 =>
      rw [List.mem_cons] at h2
      cases h2 with
      | inl he => exact SseEvent.noConfusion he
      | inr h3 =>
        rw [List.mem_cons] at h3
        cases h3 with
        | inl he => exact SseEvent.noConfusion he
        | inr h4 =>
          obtain ⟨d, hd⟩ := ih (n + 1) h4
          exact ⟨d, List.mem_cons_of_mem _ hd⟩

theorem toolu_of_mem_buildToolBlocks (gen : Nat → String) :
    ∀ (tcs : List ToolCall) (k : Nat) (id name : String) (inp : JsonValue),
      ContentBlock.toolUse id name inp ∈ buildToolBlocks gen k tcs →
      pyStartswith id "toolu_" = true := by
  intro tcs
  induction tcs with
  | nil => intro k id name inp h; simp [buildToolBlocks] at h
  | cons tc rest ih =>
    intro k id name inp h
    simp only [buildToolBlocks] at h
    rw [List.mem_cons] at h
    cases h with
    | inl he =>
      injection he with h1 h2 h3
      rw [h1]
      unfold syncToolUseId
      by_cases hs : pyStartswith tc.id "toolu_" = true
      · rw [if_pos hs]; exact hs
      · rw [if_neg hs]; exact pyStartswith_toolu_append _
    | inr hm => exact ih (k + 1) id name inp hm

theorem toolu_of_pair_mem_buildToolPairs (gen : Nat → String) :
    ∀ (tcs : List ToolCall) (k : Nat) (id name : String) (d : DeltaPayload),
      (BlockStartPayload.toolUse id name, d) ∈ buildToolPairs gen k tcs →
      pyStartswith id "toolu_" = true := by
  intro tcs
  induction tcs with
  | nil => intro k id name d h; simp [buildToolPairs] at h
  | cons tc rest ih =>
    intro k id name d h
    simp only [buildToolPairs] at h
    rw [List.mem_cons] at h
    cases h with
    | inl he =>
      obtain ⟨hb, _⟩ := Prod.mk.inj he
      injection hb with h1 h2
      rw [h1]
      exact pyStartswith_toolu_append _
    | inr hm => exact ih (k + 1) id name d hm

theorem isEmpty_append_cons {α : Type} (l1 : List α) (x : α) (xs : List α) :
    (l1 ++ (x :: xs)).isEmpty = false := by
  cases l1 <;> rfl

theorem mem_syncBlocks_right (gen : Nat → String) (re c : String) (tcs : List ToolCall)
    (b : ContentBlock) (hb : b ∈ buildToolBlocks gen 0 tcs) :
    b ∈ syncBlocks gen re c tcs := by
  have hne : (syncBlocksCore gen re c tcs).isEmpty = false := by
    rcases hb2 : buildToolBlocks gen 0 tcs with _ | ⟨x, xs⟩
    · rw [hb2] at hb; cases hb
    · unfold syncBlocksCore
      rw [hb2]
      exact isEmpty_append_cons _ _ _
  unfold syncBlocks
  rw [if_neg (by simp [hne])]
  unfold syncBlocksCore
  exact List.mem_append_right _ hb

theorem toolu_of_mem_syncBlocks (gen : Nat → String) (re c : String) (tcs : List ToolCall)
    (id name : String) (inp : JsonValue)
    (h : ContentBlock.toolUse id name inp ∈ syncBlocks gen re c tcs) :
    pyStartswith id "toolu_" = true := by
  unfold syncBlocks at h
  by_cases hb : (syncBlocksCore gen re c tcs).isEmpty = true
  · rw [if_pos hb] at h
    rw [List.mem_singleton] at h
    exact ContentBlock.noConfusion h
  · rw [if_neg hb] at h
    unfold syncBlocksCore at h
    rw [List.mem_append] at h
    cases h with
    | inl h1 =>
      rw [List.mem_append] at h1
      cases h1 with
      | inl h2 =>
        by_cases hre : re = ""
        · rw [if_pos hre] at h2; cases h2
        · rw [if_neg hre] at h2
          rw [List.mem_singleton] at h2
          exact ContentBlock.noConfusion h2
      | inr h2 =>
        by_cases hc : c = ""
        · rw [if_pos hc] at h2; cases h2
        · rw [if_neg hc] at h2
          rw [List.mem_singleton] at h2
          exact ContentBlock.noConfusion h2
    | inr h1 => exact toolu_of_mem_buildToolBlocks gen tcs 0 id name inp h1

theorem mem_sseBlockEvents_of_pair (gen : Nat → String) (re c : String)
    (tcs : List ToolCall) (b : BlockStartPayload) (d : DeltaPayload)
    (hb : (b, d) ∈ buildToolPairs gen 0 tcs) :
    ∃ j, SseEvent.blockStart j b ∈ sseBlockEvents gen re c tcs ∧
      SseEvent.blockDelta j d ∈ sseBlockEvents gen re c tcs := by
  have hpm : (b, d) ∈ sseBlockPairs gen re c tcs := by
    unfold sseBlockPairs
    exact List.mem_append_right _ hb
  have hne : (sseBlockPairs gen re c tcs).isEmpty = false := by
    rcases hp : sseBlockPairs gen re c tcs with _ | ⟨x, xs⟩
    · rw [hp] at hpm; cases hpm
    · rfl
  unfold sseBlockEvents
  rw [if_neg (by simp [hne])]
  exact emitBlocks_mem_of_pair b d _ 0 hpm

theorem toolu_of_pair_mem_sseBlockPairs (gen : Nat → String) (re c : String)
    (tcs : List ToolCall) (id name : String) (d : DeltaPayload)
    (h : (BlockStartPayload.toolUse id name, d) ∈ sseBlockPairs gen re c tcs) :
    pyStartswith id "toolu_" = true := by
  unfold sseBlockPairs at h
  rw [List.mem_append] at h
  cases h with
  | inl h1 =>
    rw [List.mem_append] at h1
    cases h1 with
    | inl h2 =>
      by_cases hre : re = ""
      · rw [if_pos hre] at h2; cases h2
      · rw [if_neg hre] at h2
        rw [List.mem_singleton] at h2
        obtain ⟨hb, _⟩ := Prod.mk.inj h2
        exact BlockStartPayload.noConfusion hb
    | inr h2 =>
      by_cases hc : c = ""
      · rw [if_pos hc] at h2; cases h2
      · rw [if_neg hc] at h2
        rw [List.mem_singleton] at h2
        obtain ⟨hb, _⟩ := Prod.mk.inj h2
        exact BlockStartPayload.noConfusion hb
  | inr h1 => exact toolu_of_pair_mem_buildToolPairs gen tcs 0 id name d h1

theorem toolu_of_start_mem_sseBlockEvents (gen : Nat → String) (re c : String)
    (tcs : List ToolCall) (j : Nat) (id name : String)
    (h : SseEvent.blockStart j (BlockStartPayload.toolUse id name) ∈
      sseBlockEvents gen re c tcs) :
    pyStartswith id "toolu_" = true := by
  unfold sseBlockEvents at h
  by_cases hp : (sseBlockPairs gen re c tcs).isEmpty = true
  · rw [if_pos hp] at h
    obtain ⟨d, hd⟩ := pair_of_start_mem_emitBlocks j _ _ 0 h
    rw [List.mem_singleton] at hd
    obtain ⟨hb, _⟩ := Prod.mk.inj hd
    exact BlockStartPayload.noConfusion hb
  · rw [if_neg hp] at h
    obtain ⟨d, hd⟩ := pair_of_start_mem_emitBlocks j _ _ 0 h
    exact toolu_of_pair_mem_sseBlockPairs gen re c tcs id name d hd

/-- C5: for every structured backend tool call whose arguments string is
not valid JSON, the response is not failed: the sync translator emits a
tool_use block whose input is the object carrying the original
arguments string verbatim under the raw key, and the pseudo-stream
translator emits a tool_use block start with a single input_json_delta
carrying the serialization of that same raw object. -/
theorem c5_malformed_arguments_raw (gen : Nat → String) (msgIdHex model : String)
    (kt : List String) (r : BackendResp) (i : Nat) (h : i < r.toolCalls.length)
    (hbad : parseJson (r.toolCalls.get ⟨i, h⟩).arguments = none) :
    (∃ id, ContentBlock.toolUse id (r.toolCalls.get ⟨i, h⟩).name
        (JsonValue.obj [("raw", JsonValue.str (r.toolCalls.get ⟨i, h⟩).arguments)])
        ∈ (handleSync gen msgIdHex model kt r).content) ∧
    (∃ j, SseEvent.blockStart j
        (BlockStartPayload.toolUse ("toolu_" ++ gen i) (r.toolCalls.get ⟨i, h⟩).name)
        ∈ handleSyncAsSse gen msgIdHex model kt r ∧
      SseEvent.blockDelta j (DeltaPayload.inputJsonDelta
          (jsonDumps (JsonValue.obj [("raw", JsonValue.str (r.toolCalls.get ⟨i, h⟩).arguments)])))
        ∈ handleSyncAsSse gen msgIdHex model kt r) := by
  have hne : r.toolCalls ≠ [] := by
    intro hnil
    rw [hnil] at h
    exact absurd h (by simp)
  have hp := process_passthrough gen kt r hne
  have hraw : parseToolInput (r.toolCalls.get ⟨i, h⟩).arguments =
      JsonValue.obj [("raw", JsonValue.str (r.toolCalls.get ⟨i, h⟩).arguments)] := by
    unfold parseToolInput
    rw [hbad]
  constructor
  · refine ⟨syncToolUseId gen i (r.toolCalls.get ⟨i, h⟩).id, ?_⟩
    have hm := mem_buildToolBlocks gen r.toolCalls 0 i h
    rw [Nat.zero_add, hraw] at hm
    have hsb := mem_syncBlocks_right gen r.reasoning r.content r.toolCalls _ hm
    unfold handleSync
    rw [hp]
    exact hsb
  · have hm := mem_buildToolPairs gen r.toolCalls 0 i h
    rw [Nat.zero_add, hraw] at hm
    obtain ⟨j, hstart, hdelta⟩ :=
      mem_sseBlockEvents_of_pair gen r.reasoning r.content r.toolCalls _ _ hm
    refine ⟨j, ?_, ?_⟩
    · unfold handleSyncAsSse
      rw [hp]
      exact List.mem_cons_of_mem _ (List.mem_append_left _ hstart)
    · unfold handleSyncAsSse
      rw [hp]
      exact List.mem_cons_of_mem _ (List.mem_append_left _ hdelta)

def c5BackendResp : BackendResp := ⟨"", "", [⟨"abc", "Bash", "oops"⟩], "tool_calls", 0, 0⟩

theorem c5_malformed_witness :
    0 < c5BackendResp.toolCalls.length ∧
    parseJson (c5BackendResp.toolCalls.get ⟨0, by decide⟩).arguments = none ∧
    ((∃ id, ContentBlock.toolUse id (c5BackendResp.toolCalls.get ⟨0, by decide⟩).name
        (JsonValue.obj
          [("raw", JsonValue.str (c5BackendResp.toolCalls.get ⟨0, by decide⟩).arguments)])
        ∈ (handleSync (fun _ => "u") "h" "m" [] c5BackendResp).content) ∧
    (∃ j, SseEvent.blockStart j
        (BlockStartPayload.toolUse ("toolu_" ++ (fun _ : Nat => "u") 0)
          (c5BackendResp.toolCalls.get ⟨0, by decide⟩).name)
        ∈ handleSyncAsSse (fun _ => "u") "h" "m" [] c5BackendResp ∧
      SseEvent.blockDelta j (DeltaPayload.inputJsonDelta
          (jsonDumps (JsonValue.obj
            [("raw", JsonValue.str (c5BackendResp.toolCalls.get ⟨0, by decide⟩).arguments)])))
        ∈ handleSyncAsSse (fun _ => "u") "h" "m" [] c5BackendResp)) :=
  ⟨by decide, rfl,
    c5_malformed_arguments_raw (fun _ => "u") "h" "m" [] c5BackendResp 0 (by decide) rfl⟩

/-- C10: every tool_use block emitted by either translator has an id
beginning with the Anthropic prefix; per structured call, the sync path
emits the block whose id keeps the backend id exactly when it already
starts with the prefix and otherwise is a freshly generated prefixed
id, while the pseudo-stream path always uses a freshly generated
prefixed id regardless of the backend id. -/
theorem c10_toolu_id_invariant (gen : Nat → String) (msgIdHex model : String)
    (kt : List String) (r : BackendResp) :
    (∀ id name inp,
      ContentBlock.toolUse id name inp ∈ (handleSync gen msgIdHex model kt r).content →
      pyStartswith id "toolu_" = true) ∧
    (∀ j id name,
      SseEvent.blockStart j (BlockStartPayload.toolUse id name) ∈
        handleSyncAsSse gen msgIdHex model kt r →
      pyStartswith id "toolu_" = true) ∧
    (∀ i, (hi : i < r.toolCalls.length) →
      (ContentBlock.toolUse
          (if pyStartswith (r.toolCalls.get ⟨i, hi⟩).id "toolu_" = true then
            (r.toolCalls.get ⟨i, hi⟩).id
           else "toolu_" ++ gen i)
          (r.toolCalls.get ⟨i, hi⟩).name
          (parseToolInput (r.toolCalls.get ⟨i, hi⟩).arguments)
        ∈ (handleSync gen msgIdHex model kt r).content) ∧
      (∃ j, SseEvent.blockStart j
          (BlockStartPayload.toolUse ("toolu_" ++ gen i) (r.toolCalls.get ⟨i, hi⟩).name)
        ∈ handleSyncAsSse gen msgIdHex model kt r)) := by
  refine ⟨?_, ?_, ?_⟩
  · intro id name inp h
    unfold handleSync at h
    exact toolu_of_mem_syncBlocks gen _ _ _ id name inp h
  · intro j id name h
    unfold handleSyncAsSse at h
    rcases List.mem_cons.mp h with he | h1
    · exact SseEvent.noConfusion he
    rcases List.mem_append.mp h1 with h2 | h2
    · exact toolu_of_start_mem_sseBlockEvents gen _ _ _ j id name h2
    rcases List.mem_cons.mp h2 with he | h3
    · exact SseEvent.noConfusion he
    rw [List.mem_singleton] at h3
    exact SseEvent.noConfusion h3
  · intro i hi
    have hne : r.toolCalls ≠ [] := by
      intro hnil
      rw [hnil] at hi
      exact absurd hi (by simp)
    have hp := process_passthrough gen kt r hne
    constructor
    · have hm := mem_buildToolBlocks gen r.toolCalls 0 i hi
      rw [Nat.zero_add] at hm
      have hsb := mem_syncBlocks_right gen r.reasoning r.content r.toolCalls _ hm
      unfold handleSync
      rw [hp]
      exact hsb
    · have hm := mem_buildToolPairs gen r.toolCalls 0 i hi
      rw [Nat.zero_add] at hm
      obtain ⟨j, hstart, _⟩ :=
        mem_sseBlockEvents_of_pair gen r.reasoning r.content r.toolCalls _ _ hm
      refine ⟨j, ?_⟩
      unfold handleSyncAsSse
      rw [hp]
      exact List.mem_cons_of_mem _ (List.mem_append_left _ hstart)

theorem c10_toolu_id_witness :
    0 < c4BackendResp.toolCalls.length ∧
    (ContentBlock.toolUse
        (if pyStartswith (c4BackendResp.toolCalls.get ⟨0, by decide⟩).id "toolu_" = true then
          (c4BackendResp.toolCalls.get ⟨0, by decide⟩).id
         else "toolu_" ++ (fun _ : Nat => "u") 0)
        (c4BackendResp.toolCalls.get ⟨0, by decide⟩).name
        (parseToolInput (c4BackendResp.toolCalls.get ⟨0, by decide⟩).arguments)
      ∈ (handleSync (fun _ => "u") "h" "m" [] c4BackendResp).content) ∧
    (∃ j, SseEvent.blockStart j
        (BlockStartPayload.toolUse ("toolu_" ++ (fun _ : Nat => "u") 0)
          (c4BackendResp.toolCalls.get ⟨0, by decide⟩).name)
      ∈ handleSyncAsSse (fun _ => "u") "h" "m" [] c4BackendResp) :=
  ⟨by decide,
    ((c10_toolu_id_invariant (fun _ => "u") "h" "m" [] c4BackendResp).2.2 0 (by decide)).1,
    ((c10_toolu_id_invariant (fun _ => "u") "h" "m" [] c4BackendResp).2.2 0 (by decide)).2⟩
